import Mathlib

/-
Verification of the got testing-helper library: a shallow embedding of the
Case value object (case.go), the case builder, and the fluent test runner R
(runner.go), together with proofs of the behavioural properties stated in
the specification.

Modelling conventions:
- Go interface values of type any are modelled by the inductive GoVal.
  The untyped nil interface (no dynamic type, no value) is
  GoVal.nilInterface; a typed nil reference (for example a nil pointer)
  stored inside an any is GoVal.typedNil t where t records the dynamic
  type name.  In Go, an interface compares equal to nil exactly when both
  its dynamic type and its value are absent, so the comparison value == nil
  used by the source is true only for GoVal.nilInterface.
- error values are Option String: none is the nil error, some m an error
  whose Error() string is m.
- reflect.DeepEqual on the modelled values is structural equality.
- testing.T is modelled by explicit state inside the runner R: a log
  (list of emitted lines), a failed flag (set by Errorf), a halted flag
  (set by FailNow / Fatalf: runtime.Goexit abandons the test body, which
  the command interpreter runBody reflects by executing no further
  command once halted holds), a skipped flag (Skipf), the environment
  set by Setenv, the number of registered cleanup functions, and the
  outcomes of subtests run through T.Run.
- format strings are taken already formatted: every property proved here
  concerns only how the source concatenates its own text around the
  caller message, never the expansion of printf verbs.
- pointers to caseImpl cells are modelled by a small heap (list of cells
  addressed by index), because the source Build method returns the address
  of the caseImpl embedded in the builder rather than a copy, and this
  aliasing is observable.
-/

namespace Got

/-- Model of a Go value stored in an any: the untyped nil interface, a
typed nil reference boxed in the interface, booleans, integers, strings,
and slices (both a literal list of any and a typed slice or array walked by
reflection present their elements this way). -/
inductive GoVal where
  | nilInterface : GoVal
  | typedNil (typeName : String) : GoVal
  | vBool (b : Bool) : GoVal
  | vInt (n : Int) : GoVal
  | vStr (s : String) : GoVal
  | vList (elems : List GoVal) : GoVal

mutual

/-- Decidable equality on GoVal, written by hand because the deriving
handler does not support the nested List occurrence. -/
def GoVal.decEq : (a b : GoVal) → Decidable (a = b)
  | .nilInterface, .nilInterface => isTrue rfl
  | .nilInterface, .typedNil _ => isFalse (fun h => GoVal.noConfusion h)
  | .nilInterface, .vBool _ => isFalse (fun h => GoVal.noConfusion h)
  | .nilInterface, .vInt _ => isFalse (fun h => GoVal.noConfusion h)
  | .nilInterface, .vStr _ => isFalse (fun h => GoVal.noConfusion h)
  | .nilInterface, .vList _ => isFalse (fun h => GoVal.noConfusion h)
  | .typedNil _, .nilInterface => isFalse (fun h => GoVal.noConfusion h)
  | .typedNil a, .typedNil b =>
    if h : a = b then isTrue (by rw [h]) else isFalse (by intro hh; cases hh; exact h rfl)
  | .typedNil _, .vBool _ => isFalse (fun h => GoVal.noConfusion h)
  | .typedNil _, .vInt _ => isFalse (fun h => GoVal.noConfusion h)
  | .typedNil _, .vStr _ => isFalse (fun h => GoVal.noConfusion h)
  | .typedNil _, .vList _ => isFalse (fun h => GoVal.noConfusion h)
  | .vBool _, .nilInterface => isFalse (fun h => GoVal.noConfusion h)
  | .vBool _, .typedNil _ => isFalse (fun h => GoVal.noConfusion h)
  | .vBool a, .vBool b =>
    if h : a = b then isTrue (by rw [h]) else isFalse (by intro hh; cases hh; exact h rfl)
  | .vBool _, .vInt _ => isFalse (fun h => GoVal.noConfusion h)
  | .vBool _, .vStr _ => isFalse (fun h => GoVal.noConfusion h)
  | .vBool _, .vList _ => isFalse (fun h => GoVal.noConfusion h)
  | .vInt _, .nilInterface => isFalse (fun h => GoVal.noConfusion h)
  | .vInt _, .typedNil _ => isFalse (fun h => GoVal.noConfusion h)
  | .vInt _, .vBool _ => isFalse (fun h => GoVal.noConfusion h)
  | .vInt a, .vInt b =>
    if h : a = b then isTrue (by rw [h]) else isFalse (by intro hh; cases hh; exact h rfl)
  | .vInt _, .vStr _ => isFalse (fun h => GoVal.noConfusion h)
  | .vInt _, .vList _ => isFalse (fun h => GoVal.noConfusion h)
  | .vStr _, .nilInterface => isFalse (fun h => GoVal.noConfusion h)
  | .vStr _, .typedNil _ => isFalse (fun h => GoVal.noConfusion h)
  | .vStr _, .vBool _ => isFalse (fun h => GoVal.noConfusion h)
  | .vStr _, .vInt _ => isFalse (fun h => GoVal.noConfusion h)
  | .vStr a, .vStr b =>
    if h : a = b then isTrue (by rw [h]) else isFalse (by intro hh; cases hh; exact h rfl)
  | .vStr _, .vList _ => isFalse (fun h => GoVal.noConfusion h)
  | .vList _, .nilInterface => isFalse (fun h => GoVal.noConfusion h)
  | .vList _, .typedNil _ => isFalse (fun h => GoVal.noConfusion h)
  | .vList _, .vBool _ => isFalse (fun h => GoVal.noConfusion h)
  | .vList _, .vInt _ => isFalse (fun h => GoVal.noConfusion h)
  | .vList _, .vStr _ => isFalse (fun h => GoVal.noConfusion h)
  | .vList a, .vList b =>
    match GoVal.decEqList a b with
    | isTrue h => isTrue (by rw [h])
    | isFalse h => isFalse (by intro hh; cases hh; exact h rfl)

/-- Decidable equality on lists of GoVal, mutual with GoVal.decEq. -/
def GoVal.decEqList : (a b : List GoVal) → Decidable (a = b)
  | [], [] => isTrue rfl
  | [], _ :: _ => isFalse (fun h => List.noConfusion h)
  | _ :: _, [] => isFalse (fun h => List.noConfusion h)
  | a :: as, b :: bs =>
    match GoVal.decEq a b, GoVal.decEqList as bs with
    | isTrue h1, isTrue h2 => isTrue (by rw [h1, h2])
    | isFalse h1, _ => isFalse (by intro hh; cases hh; exact h1 rfl)
    | isTrue _, isFalse h2 => isFalse (by intro hh; cases hh; exact h2 rfl)

end

instance : DecidableEq GoVal := GoVal.decEq

/-- Model of reflect.DeepEqual on the embedded values: structural
equality. -/
def goDeepEqual (a b : GoVal) : Bool := decide (a = b)

mutual

/-- Rendering of a GoVal by the fmt verb percent-v: a nil interface and a
typed nil reference both print as the nil marker, slices print their
elements space separated inside brackets. -/
def goShow : GoVal → String
  | .nilInterface => "<nil>"
  | .typedNil _ => "<nil>"
  | .vBool b => if b then "true" else "false"
  | .vInt n => toString n
  | .vStr s => s
  | .vList xs => "[" ++ goShowList xs ++ "]"

/-- Space-separated rendering of slice elements, mutual with goShow. -/
def goShowList : List GoVal → String
  | [] => ""
  | [x] => goShow x
  | x :: y :: xs => goShow x ++ " " ++ goShowList (y :: xs)

end

/-- Check that the second list starts the first: the comparison done at
each scan position of the substring search in strings.Contains. -/
def leadsWith : List Char → List Char → Bool
  | [], _ => true
  | _ :: _, [] => false
  | a :: as, b :: bs => a == b && leadsWith as bs

/-- Scan of a haystack for an occurrence of the needle at any position:
the observable behaviour of strings.Contains over the character
sequences. -/
def hasSubstrAux (needle : List Char) : List Char → Bool
  | [] => needle.isEmpty
  | h :: t => leadsWith needle (h :: t) || hasSubstrAux needle t

/-- Model of strings.Contains(s, sub). -/
def strContains (s sub : String) : Bool := hasSubstrAux sub.data s.data

/-- Model of the struct caseImpl from case.go, the single implementation
of the Case interface: name, input, want, wantErr, err, with the Go zero
values as defaults (a fresh any field holds the untyped nil interface). -/
structure caseImpl where
  name : String := ""
  input : GoVal := .nilInterface
  want : GoVal := .nilInterface
  wantErr : Bool := false
  err : Option String := none
  deriving DecidableEq

/-- Heap of caseImpl cells addressed by index: pointers returned by
NewCase and Build are cell addresses, because the source hands out the
address of the caseImpl embedded in the builder. -/
structure Heap where
  cells : List caseImpl := []
  deriving DecidableEq

/-- Allocation of a fresh cell, returning the new heap and the address. -/
def Heap.alloc (h : Heap) (c : caseImpl) : Heap × Nat :=
  ({ cells := h.cells ++ [c] }, h.cells.length)

/-- Read of the cell at an address (the Go zero caseImpl for a dangling
address, which never arises in the programs considered). -/
def Heap.read (h : Heap) (a : Nat) : caseImpl := (h.cells[a]?).getD {}

/-- Store of a whole cell at an address. -/
def Heap.write (h : Heap) (a : Nat) (c : caseImpl) : Heap :=
  { cells := h.cells.set a c }

/-- Model of NewCase(name, input, want, wantErr, err): allocates a fresh
caseImpl and returns its address as the Case. -/
def NewCase (h : Heap) (name : String) (input want : GoVal) (wantErr : Bool)
    (err : Option String) : Heap × Nat :=
  h.alloc { name, input, want, wantErr, err }

/-- Model of CaseBuilder(name): allocates the builder, whose only state is
the embedded caseImpl initialised with the given name and zero values for
every other field; the address doubles as the builder handle. -/
def CaseBuilder (h : Heap) (name : String) : Heap × Nat :=
  h.alloc { name := name }

/-- Model of the builder method Name: overwrite the name field in place. -/
def builderName (h : Heap) (b : Nat) (name : String) : Heap :=
  h.write b { h.read b with name := name }

/-- Model of the builder method Input: overwrite the input field in
place. -/
def builderInput (h : Heap) (b : Nat) (input : GoVal) : Heap :=
  h.write b { h.read b with input := input }

/-- Model of the builder method Want: overwrite the want field in place. -/
def builderWant (h : Heap) (b : Nat) (want : GoVal) : Heap :=
  h.write b { h.read b with want := want }

/-- Model of the builder method WantErr: overwrite the wantErr field in
place. -/
def builderWantErr (h : Heap) (b : Nat) (wantErr : Bool) : Heap :=
  h.write b { h.read b with wantErr := wantErr }

/-- Model of the builder method Err: overwrite the err field in place. -/
def builderErr (h : Heap) (b : Nat) (err : Option String) : Heap :=
  h.write b { h.read b with err := err }

/-- Model of Build(): the source returns the address of the caseImpl
embedded in the builder (return of the expression taking the address of
the embedded field), and since that embedded struct is the entire builder
state, the returned Case is the builder address itself — no copy is
made. -/
def Build (b : Nat) : Nat := b

/-- Accessor Name() of a Case pointer. -/
def caseName (h : Heap) (p : Nat) : String := (h.read p).name

/-- Accessor Input() of a Case pointer. -/
def caseInput (h : Heap) (p : Nat) : GoVal := (h.read p).input

/-- Accessor Want() of a Case pointer. -/
def caseWant (h : Heap) (p : Nat) : GoVal := (h.read p).want

/-- Accessor WantErr() of a Case pointer. -/
def caseWantErr (h : Heap) (p : Nat) : Bool := (h.read p).wantErr

/-- Accessor Err() of a Case pointer. -/
def caseErr (h : Heap) (p : Nat) : Option String := (h.read p).err

/-- One builder setter call, as data, for reasoning about arbitrary
sequences of setter calls. -/
inductive SetOp where
  | setName (s : String)
  | setInput (v : GoVal)
  | setWant (v : GoVal)
  | setWantErr (b : Bool)
  | setErr (e : Option String)

/-- Execution of one setter call on the builder at address b. -/
def applySet (h : Heap) (b : Nat) : SetOp → Heap
  | .setName s => builderName h b s
  | .setInput v => builderInput h b v
  | .setWant v => builderWant h b v
  | .setWantErr x => builderWantErr h b x
  | .setErr e => builderErr h b e

/-- Execution of a sequence of setter calls, in order. -/
def applySets (h : Heap) (b : Nat) : List SetOp → Heap
  | [] => h
  | op :: ops => applySets (applySet h b op) b ops

/-- Specification-side effect of a setter sequence on one caseImpl value:
the field updates applied to a plain value, no aliasing involved. -/
def applySetVal (c : caseImpl) : SetOp → caseImpl
  | .setName s => { c with name := s }
  | .setInput v => { c with input := v }
  | .setWant v => { c with want := v }
  | .setWantErr x => { c with wantErr := x }
  | .setErr e => { c with err := e }

/-- Fold of applySetVal over a setter sequence: the value whose every
field holds the last value written to it (or the start value when the
sequence never writes that field). -/
def applySetVals (c : caseImpl) : List SetOp → caseImpl
  | [] => c
  | op :: ops => applySetVals (applySetVal c op) ops

/-- Green check mark glyph used by Pass. -/
def checkMark : String := "\x1b[32m✓\x1b[0m"

/-- Red cross glyph used by Fail and Fatal. -/
def ballotX : String := "\x1b[31m✗\x1b[0m"

/-- Line emitted by Pass for a message: tab, check mark, space, message. -/
def passLine (format : String) : String := "\t" ++ checkMark ++ " " ++ format

/-- Line emitted by Fail or Fatal for a message: tab, cross, space,
message. -/
def failLine (format : String) : String := "\t" ++ ballotX ++ " " ++ format

/-- State of a subtest context (the fresh testing.T passed to the callback
of Run): its log, its failed flag, and whether the callback halted it. -/
structure SubT where
  log : List String := []
  failed : Bool := false
  halted : Bool := false
  deriving DecidableEq

/-- Snapshot of runtime.MemStats as read by MemoryUsage. -/
structure MemStats where
  alloc : Nat := 0
  totalAlloc : Nat := 0
  sys : Nat := 0
  numGC : Nat := 0
  deriving DecidableEq

/-- Model of the runner struct R from runner.go together with the state of
the testing.T it embeds.  casePrefix models the field the source spells
with a shorter name; tName models the name reported by the embedded
testing.T; startTime and all times are nanosecond counts. -/
structure R where
  title : String := ""
  caseNum : Nat := 0
  casePrefix : String := ""
  startTime : Nat := 0
  benchmark : Bool := false
  parallel : Bool := false
  tName : String := ""
  log : List String := []
  failed : Bool := false
  halted : Bool := false
  skipped : Bool := false
  cleanups : Nat := 0
  env : List (String × String) := []
  subResults : List (String × SubT) := []
  deriving DecidableEq

/-- Model of testing.T Logf/Log: append one formatted line to the log. -/
def R.Logf (r : R) (s : String) : R := { r with log := r.log ++ [s] }

/-- Model of testing.T Errorf: log the line and mark the test failed,
without halting. -/
def R.Errorf (r : R) (s : String) : R :=
  { r with log := r.log ++ [s], failed := true }

/-- Model of testing.T Fatalf: log the line, mark the test failed, and
halt the test body. -/
def R.Fatalf (r : R) (s : String) : R :=
  { r with log := r.log ++ [s], failed := true, halted := true }

/-- Model of testing.T FailNow: mark the test failed and halt the test
body. -/
def R.tFailNow (r : R) : R := { r with failed := true, halted := true }

/-- Model of testing.T Skipf: log the line, mark the test skipped, and
halt the test body. -/
def R.tSkipf (r : R) (s : String) : R :=
  { r with log := r.log ++ [s], skipped := true, halted := true }

/-- Model of New(t, title): log the suite announcement line and return a
runner with counter zero and the current time as timer baseline. -/
def New (tName title : String) (now : Nat) : R :=
  { tName := tName, title := title, startTime := now,
    log := ["Test Case => " ++ title] }

/-- Model of the method Case: increment the counter, rebuild the stored
case marker from the new counter value, and log the message with that
marker prepended. -/
def R.Case (r : R) (format : String) : R :=
  let n := r.caseNum + 1
  let p := "Case " ++ toString n ++ " -> "
  R.Logf { r with caseNum := n, casePrefix := p } (p ++ format)

/-- Model of the method Run: execute the callback on a fresh subtest
context, record the named outcome, and propagate a subtest failure to the
eventual verdict of the parent (the parent body is never halted by it). -/
def R.Run (r : R) (name : String) (f : SubT → SubT) : R :=
  let sub := f {}
  { r with subResults := r.subResults ++ [(name, sub)],
           failed := r.failed || sub.failed }

/-- Model of the method Caser: Case with the name as message, then Run
under the same name. -/
def R.Caser (r : R) (name : String) (f : SubT → SubT) : R :=
  (r.Case name).Run name f

/-- Model of the method Cases: for each case in order, announce it through
Case using its name, then run the callback on it as a subtest of that
name. -/
def R.Cases (r : R) (cases : List caseImpl) (f : caseImpl → SubT → SubT) : R :=
  match cases with
  | [] => r
  | c :: cs => R.Cases ((r.Case c.name).Run c.name (f c)) cs f

/-- Model of the method Pass: log the message behind the check mark. -/
def R.Pass (r : R) (format : String) : R := r.Logf (passLine format)

/-- Model of the method Fail: log the message behind the cross through
Errorf, marking the test failed without halting it. -/
def R.Fail (r : R) (format : String) : R := r.Errorf (failLine format)

/-- Model of the method Fatal: log the message behind the cross through
Fatalf, which also halts the test body. -/
def R.Fatal (r : R) (format : String) : R := r.Fatalf (failLine format)

/-- Model of the method Require: Pass when the condition holds, Fail
otherwise. -/
def R.Require (r : R) (cond : Bool) (desc : String) : R :=
  if cond then r.Pass desc else r.Fail desc

/-- Model of the method FailNow: Pass when the condition holds, otherwise
Fail followed by the halting FailNow of the embedded testing.T. -/
def R.FailNow (r : R) (cond : Bool) (desc : String) : R :=
  if cond then r.Pass desc else (r.Fail desc).tFailNow

/-- Model of the method AssertNoErrf: Pass when the error is nil,
otherwise Fail, log the error text, and halt. -/
def R.AssertNoErrf (r : R) (err : Option String) (desc : String) : R :=
  match err with
  | none => r.Pass desc
  | some m => (((r.Fail desc).Logf ("requires no error, but found: " ++ m))).tFailNow

/-- Model of the method AssertNoErr: AssertNoErrf with the default
description. -/
def R.AssertNoErr (r : R) (err : Option String) : R :=
  r.AssertNoErrf err "error unexpected"

/-- Model of the method AssertErrf: Pass when the error is non-nil,
otherwise Fail, log that none was found, and halt. -/
def R.AssertErrf (r : R) (err : Option String) (desc : String) : R :=
  match err with
  | none => (((r.Fail desc).Logf "requires error, but found nil")).tFailNow
  | some _ => r.Pass desc

/-- Model of the method AssertErr: AssertErrf with the default
description. -/
def R.AssertErr (r : R) (err : Option String) : R :=
  r.AssertErrf err "error expected"

/-- Message resolution shared by the descriptive assertions: the first
caller-supplied message when present, the computed default otherwise. -/
def resolveMsg (msg : List String) (deflt : String) : String :=
  match msg with
  | [] => deflt
  | m :: _ => m

/-- Model of the method AssertEqual: deep equality of the two values. -/
def R.AssertEqual (r : R) (expected actual : GoVal) (msg : List String) : R :=
  if !(goDeepEqual expected actual) then
    r.Fail (resolveMsg msg ("Expected " ++ goShow expected ++ ", got " ++ goShow actual))
  else
    r.Pass "Values are equal"

/-- Model of the method AssertNotEqual: deep inequality of the two
values. -/
def R.AssertNotEqual (r : R) (expected actual : GoVal) (msg : List String) : R :=
  if goDeepEqual expected actual then
    r.Fail (resolveMsg msg ("Expected values to be different, but both are " ++ goShow expected))
  else
    r.Pass "Values are not equal"

/-- Model of the method AssertNil.  The source compares the any argument
against nil directly; on a Go interface that comparison is true only when
the interface itself is nil, so only GoVal.nilInterface takes the Pass
branch and every boxed value — a typed nil reference included — takes the
Fail branch. -/
def R.AssertNil (r : R) (value : GoVal) (msg : List String) : R :=
  if value ≠ GoVal.nilInterface then
    r.Fail (resolveMsg msg ("Expected nil, got " ++ goShow value))
  else
    r.Pass "Value is nil"

/-- Model of the method AssertNotNil, the direct-comparison dual of
AssertNil. -/
def R.AssertNotNil (r : R) (value : GoVal) (msg : List String) : R :=
  if value = GoVal.nilInterface then
    r.Fail (resolveMsg msg "Expected non-nil value, got nil")
  else
    r.Pass "Value is not nil"

/-- Model of the method AssertTrue. -/
def R.AssertTrue (r : R) (condition : Bool) (msg : List String) : R :=
  if !condition then
    r.Fail (resolveMsg msg "Expected condition to be true")
  else
    r.Pass "Condition is true"

/-- Model of the method AssertFalse. -/
def R.AssertFalse (r : R) (condition : Bool) (msg : List String) : R :=
  if condition then
    r.Fail (resolveMsg msg "Expected condition to be false")
  else
    r.Pass "Condition is false"

/-- Containment decision of AssertContains and AssertNotContains: for a
string container and a string item, substring search; for a slice (the
literal list-of-any case and the reflection walk over a typed slice or
array present their elements identically here), element-wise deep
equality against the item; for every other container shape, false. -/
def containsCheck (container item : GoVal) : Bool :=
  match container with
  | .vStr c =>
    match item with
    | .vStr s => strContains c s
    | _ => false
  | .vList xs => xs.any (fun v => goDeepEqual v item)
  | _ => false

/-- Model of the method AssertContains. -/
def R.AssertContains (r : R) (container item : GoVal) (msg : List String) : R :=
  if !(containsCheck container item) then
    r.Fail (resolveMsg msg ("Expected " ++ goShow container ++ " to contain " ++ goShow item))
  else
    r.Pass "Container contains item"

/-- Model of the method AssertNotContains. -/
def R.AssertNotContains (r : R) (container item : GoVal) (msg : List String) : R :=
  if containsCheck container item then
    r.Fail (resolveMsg msg ("Expected " ++ goShow container ++ " not to contain " ++ goShow item))
  else
    r.Pass "Container does not contain item"

/-- Model of StartTimer: reset the timer baseline, then announce through
Case. -/
def R.StartTimer (r : R) (now : Nat) : R :=
  ({ r with startTime := now }).Case "Starting test timer"

/-- Model of StopTimer: announce the elapsed duration through Case. -/
def R.StopTimer (r : R) (now : Nat) : R :=
  r.Case ("Test completed in " ++ toString (now - r.startTime) ++ "ns")

/-- Model of Benchmark: announce through Case, set the benchmark flag, run
the stub subtest whose body logs through the outer runner, then clear the
flag. -/
def R.Benchmark (r : R) (name : String) : R :=
  let r1 := { r.Case ("Benchmark: " ++ name) with benchmark := true }
  let r2 := { r1 with log := r1.log ++ ["Running benchmark: " ++ name],
                      subResults := r1.subResults ++ [(name, ({} : SubT))] }
  { r2 with benchmark := false }

/-- Model of Parallel: set the parallel flag, mark the embedded testing.T
parallel (no observable state here), then announce through Case. -/
def R.Parallel (r : R) : R :=
  ({ r with parallel := true }).Case "Test marked as parallel"

/-- Model of Skip: announce through Case, then skip and halt through the
Skipf of the embedded testing.T. -/
def R.Skip (r : R) (reason : String) : R :=
  ((r.Case ("Skipping test: " ++ reason))).tSkipf reason

/-- Model of SkipIf: Skip when the condition holds. -/
def R.SkipIf (r : R) (condition : Bool) (reason : String) : R :=
  if condition then r.Skip reason else r

/-- Model of SkipUnless: Skip when the condition fails. -/
def R.SkipUnless (r : R) (condition : Bool) (reason : String) : R :=
  if !condition then r.Skip reason else r

/-- Model of Cleanup: register the function on the embedded testing.T,
then announce through Case. -/
def R.Cleanup (r : R) : R :=
  ({ r with cleanups := r.cleanups + 1 }).Case "Cleanup function registered"

/-- Model of Helper: delegation only, no modelled state. -/
def R.Helper (r : R) : R := r

/-- Model of Setenv: record the variable on the embedded testing.T, then
announce through Case. -/
def R.Setenv (r : R) (key value : String) : R :=
  ({ r with env := r.env ++ [(key, value)] }).Case
    ("Environment variable set: " ++ key ++ "=" ++ value)

/-- Model of RunParallel: announcement through Case only (the source is a
stub). -/
def R.RunParallel (r : R) : R := r.Case "Running tests in parallel"

/-- Model of MemoryUsage: announce through Case, then log the four
statistics lines. -/
def R.MemoryUsage (r : R) (m : MemStats) : R :=
  ((((r.Case "Memory Usage").Logf
      ("Alloc: " ++ toString (m.alloc / 1024) ++ " KB")).Logf
      ("TotalAlloc: " ++ toString (m.totalAlloc / 1024) ++ " KB")).Logf
      ("Sys: " ++ toString (m.sys / 1024) ++ " KB")).Logf
      ("NumGC: " ++ toString m.numGC)

/-- Model of GoroutineCount: announce the count through Case. -/
def R.GoroutineCount (r : R) (count : Nat) : R :=
  r.Case ("Goroutine count: " ++ toString count)

/-- Model of TestInfo: announce through Case, log the five information
lines, then invoke GoroutineCount and MemoryUsage (each announcing through
Case again). -/
def R.TestInfo (r : R) (now count : Nat) (m : MemStats) : R :=
  (((((((r.Case "Test Information").Logf
      ("Test Name: " ++ r.tName)).Logf
      ("Start Time: " ++ toString r.startTime)).Logf
      ("Duration: " ++ toString (now - r.startTime) ++ "ns")).Logf
      ("Parallel: " ++ (if r.parallel then "true" else "false"))).Logf
      ("Benchmark: " ++ (if r.benchmark then "true" else "false"))).GoroutineCount
      count).MemoryUsage m

/-- One runner operation, as data, so that whole test bodies are lists of
operations executed by runBody. -/
inductive Cmd where
  | caseCmd (format : String)
  | caserCmd (name : String) (f : SubT → SubT)
  | runCmd (name : String) (f : SubT → SubT)
  | casesCmd (cases : List caseImpl) (f : caseImpl → SubT → SubT)
  | passCmd (format : String)
  | failCmd (format : String)
  | fatalCmd (format : String)
  | requireCmd (cond : Bool) (desc : String)
  | failNowCmd (cond : Bool) (desc : String)
  | assertNoErrCmd (err : Option String)
  | assertNoErrfCmd (err : Option String) (desc : String)
  | assertErrCmd (err : Option String)
  | assertErrfCmd (err : Option String) (desc : String)
  | assertEqualCmd (expected actual : GoVal) (msg : List String)
  | assertNotEqualCmd (expected actual : GoVal) (msg : List String)
  | assertNilCmd (value : GoVal) (msg : List String)
  | assertNotNilCmd (value : GoVal) (msg : List String)
  | assertTrueCmd (condition : Bool) (msg : List String)
  | assertFalseCmd (condition : Bool) (msg : List String)
  | assertContainsCmd (container item : GoVal) (msg : List String)
  | assertNotContainsCmd (container item : GoVal) (msg : List String)
  | startTimerCmd (now : Nat)
  | stopTimerCmd (now : Nat)
  | benchmarkCmd (name : String)
  | parallelCmd
  | skipCmd (reason : String)
  | skipIfCmd (condition : Bool) (reason : String)
  | skipUnlessCmd (condition : Bool) (reason : String)
  | cleanupCmd
  | helperCmd
  | setenvCmd (key value : String)
  | runParallelCmd
  | memoryUsageCmd (m : MemStats)
  | goroutineCountCmd (count : Nat)
  | testInfoCmd (now count : Nat) (m : MemStats)

/-- Dispatch of one operation to its model. -/
def step (r : R) : Cmd → R
  | .caseCmd format => r.Case format
  | .caserCmd name f => r.Caser name f
  | .runCmd name f => r.Run name f
  | .casesCmd cases f => r.Cases cases f
  | .passCmd format => r.Pass format
  | .failCmd format => r.Fail format
  | .fatalCmd format => r.Fatal format
  | .requireCmd cond desc => r.Require cond desc
  | .failNowCmd cond desc => r.FailNow cond desc
  | .assertNoErrCmd err => r.AssertNoErr err
  | .assertNoErrfCmd err desc => r.AssertNoErrf err desc
  | .assertErrCmd err => r.AssertErr err
  | .assertErrfCmd err desc => r.AssertErrf err desc
  | .assertEqualCmd e a msg => r.AssertEqual e a msg
  | .assertNotEqualCmd e a msg => r.AssertNotEqual e a msg
  | .assertNilCmd v msg => r.AssertNil v msg
  | .assertNotNilCmd v msg => r.AssertNotNil v msg
  | .assertTrueCmd c msg => r.AssertTrue c msg
  | .assertFalseCmd c msg => r.AssertFalse c msg
  | .assertContainsCmd c i msg => r.AssertContains c i msg
  | .assertNotContainsCmd c i msg => r.AssertNotContains c i msg
  | .startTimerCmd now => r.StartTimer now
  | .stopTimerCmd now => r.StopTimer now
  | .benchmarkCmd name => r.Benchmark name
  | .parallelCmd => r.Parallel
  | .skipCmd reason => r.Skip reason
  | .skipIfCmd c reason => r.SkipIf c reason
  | .skipUnlessCmd c reason => r.SkipUnless c reason
  | .cleanupCmd => r.Cleanup
  | .helperCmd => r.Helper
  | .setenvCmd k v => r.Setenv k v
  | .runParallelCmd => r.RunParallel
  | .memoryUsageCmd m => r.MemoryUsage m
  | .goroutineCountCmd c => r.GoroutineCount c
  | .testInfoCmd now c m => r.TestInfo now c m

/-- Execution of a test body: operations run in order, and nothing after a
halting operation is reached (runtime.Goexit unwinds the body). -/
def runBody (r : R) : List Cmd → R
  | [] => r
  | c :: cs => if r.halted then r else runBody (step r c) cs

/-- Expected announcement lines for a list of messages announced through
Case when the counter currently reads n: message i is numbered n + i,
one-based. -/
def announceLog : Nat → List String → List String
  | _, [] => []
  | n, m :: ms => ("Case " ++ toString (n + 1) ++ " -> " ++ m) :: announceLog (n + 1) ms

/-- Fixed example runner used by the closed witness statements. -/
def rEx : R := New "TestX" "Suite" 0

/-- Empty heap used by concrete builder executions. -/
def emptyHeap : Heap := {}

/-- Values carried by the name setter calls of a sequence, in order. -/
def nameWrites : List SetOp → List String :=
  List.filterMap (fun op => match op with | .setName s => some s | _ => none)

/-- Values carried by the input setter calls of a sequence, in order. -/
def inputWrites : List SetOp → List GoVal :=
  List.filterMap (fun op => match op with | .setInput v => some v | _ => none)

/-- Values carried by the want setter calls of a sequence, in order. -/
def wantWrites : List SetOp → List GoVal :=
  List.filterMap (fun op => match op with | .setWant v => some v | _ => none)

/-- Values carried by the wantErr setter calls of a sequence, in order. -/
def wantErrWrites : List SetOp → List Bool :=
  List.filterMap (fun op => match op with | .setWantErr b => some b | _ => none)

/-- Values carried by the err setter calls of a sequence, in order. -/
def errWrites : List SetOp → List (Option String) :=
  List.filterMap (fun op => match op with | .setErr e => some e | _ => none)

/-
Helper lemmas about the heap and the builder.
-/

/-- Reading a freshly allocated cell yields the allocated value. -/
theorem Heap.read_alloc (h : Heap) (c : caseImpl) :
    (h.alloc c).1.read (h.alloc c).2 = c := by
  unfold Heap.alloc Heap.read
  rw [List.getElem?_concat_length]
  rfl

/-- A freshly allocated address is in bounds. -/
theorem Heap.alloc_lt (h : Heap) (c : caseImpl) :
    (h.alloc c).2 < (h.alloc c).1.cells.length := by
  simp [Heap.alloc]

/-- Writing preserves the number of cells. -/
theorem Heap.length_write (h : Heap) (a : Nat) (c : caseImpl) :
    (h.write a c).cells.length = h.cells.length := by
  simp [Heap.write]

/-- Reading back an in-bounds written cell yields the written value. -/
theorem Heap.read_write_self (h : Heap) (a : Nat) (c : caseImpl)
    (ha : a < h.cells.length) : (h.write a c).read a = c := by
  unfold Heap.write Heap.read
  rw [List.getElem?_set_self', List.getElem?_eq_getElem ha]
  rfl

/-- The builder cell produced by CaseBuilder holds the name and zero
values. -/
theorem caseBuilder_read (h : Heap) (name : String) :
    (CaseBuilder h name).1.read (CaseBuilder h name).2 = { name := name } :=
  Heap.read_alloc h _

/-- The builder address produced by CaseBuilder is in bounds. -/
theorem caseBuilder_lt (h : Heap) (name : String) :
    (CaseBuilder h name).2 < (CaseBuilder h name).1.cells.length :=
  Heap.alloc_lt h _

/-- A single setter call preserves the number of cells. -/
theorem length_applySet (h : Heap) (b : Nat) (op : SetOp) :
    (applySet h b op).cells.length = h.cells.length := by
  cases op <;>
    simp [applySet, builderName, builderInput, builderWant, builderWantErr,
      builderErr, Heap.write]

/-- A single in-bounds setter call updates the builder cell exactly as the
value-level update applySetVal describes. -/
theorem read_applySet (h : Heap) (b : Nat) (op : SetOp)
    (hb : b < h.cells.length) :
    (applySet h b op).read b = applySetVal (h.read b) op := by
  cases op <;>
    simp [applySet, applySetVal, builderName, builderInput, builderWant,
      builderWantErr, builderErr, Heap.read_write_self _ _ _ hb]

/-- A sequence of in-bounds setter calls updates the builder cell exactly
as the value-level fold applySetVals describes. -/
theorem read_applySets : ∀ (ops : List SetOp) (h : Heap) (b : Nat),
    b < h.cells.length →
    (applySets h b ops).read b = applySetVals (h.read b) ops := by
  intro ops
  induction ops with
  | nil => intro h b _; rfl
  | cons op ops ih =>
    intro h b hb
    have hb2 : b < (applySet h b op).cells.length := by
      rw [length_applySet]; exact hb
    simp [applySets, applySetVals, ih _ _ hb2, read_applySet _ _ _ hb]

/-- The name after a value-level setter fold is the last name written, or
the starting name when none was. -/
theorem applySetVals_name : ∀ (ops : List SetOp) (c : caseImpl),
    (applySetVals c ops).name = (nameWrites ops).getLastD c.name := by
  intro ops
  induction ops with
  | nil => intro c; rfl
  | cons op ops ih =>
    intro c
    cases op <;>
      simp only [applySetVals, applySetVal, nameWrites, List.filterMap_cons,
        List.getLastD_cons, ih]

/-- The input after a value-level setter fold is the last input written,
or the starting input when none was. -/
theorem applySetVals_input : ∀ (ops : List SetOp) (c : caseImpl),
    (applySetVals c ops).input = (inputWrites ops).getLastD c.input := by
  intro ops
  induction ops with
  | nil => intro c; rfl
  | cons op ops ih =>
    intro c
    cases op <;>
      simp only [applySetVals, applySetVal, inputWrites, List.filterMap_cons,
        List.getLastD_cons, ih]

/-- The want after a value-level setter fold is the last want written, or
the starting want when none was. -/
theorem applySetVals_want : ∀ (ops : List SetOp) (c : caseImpl),
    (applySetVals c ops).want = (wantWrites ops).getLastD c.want := by
  intro ops
  induction ops with
  | nil => intro c; rfl
  | cons op ops ih =>
    intro c
    cases op <;>
      simp only [applySetVals, applySetVal, wantWrites, List.filterMap_cons,
        List.getLastD_cons, ih]

/-- The wantErr after a value-level setter fold is the last wantErr
written, or the starting wantErr when none was. -/
theorem applySetVals_wantErr : ∀ (ops : List SetOp) (c : caseImpl),
    (applySetVals c ops).wantErr = (wantErrWrites ops).getLastD c.wantErr := by
  intro ops
  induction ops with
  | nil => intro c; rfl
  | cons op ops ih =>
    intro c
    cases op <;>
      simp only [applySetVals, applySetVal, wantErrWrites, List.filterMap_cons,
        List.getLastD_cons, ih]

/-- The err after a value-level setter fold is the last err written, or
the starting err when none was. -/
theorem applySetVals_err : ∀ (ops : List SetOp) (c : caseImpl),
    (applySetVals c ops).err = (errWrites ops).getLastD c.err := by
  intro ops
  induction ops with
  | nil => intro c; rfl
  | cons op ops ih =>
    intro c
    cases op <;>
      simp only [applySetVals, applySetVal, errWrites, List.filterMap_cons,
        List.getLastD_cons, ih]

/-- C2: the Case produced by NewCase(name, input, want, wantErr, err) and
the Case produced by
CaseBuilder(name).Input(input).Want(want).WantErr(wantErr).Err(err).Build()
agree on every accessor; and for an arbitrary sequence of builder setter
calls, every field of the built Case holds the last value written by a
setter of that field — or the initial value when no setter of that field
was called — independently of the order and number of the other setter
calls. -/
theorem newCase_builder_equivalent :
    ∀ (h : Heap) (name : String) (input want : GoVal) (wantErr : Bool)
      (err : Option String) (ops : List SetOp),
    (caseName
        (builderErr
          (builderWantErr
            (builderWant
              (builderInput (CaseBuilder h name).1 (CaseBuilder h name).2 input)
              (CaseBuilder h name).2 want)
            (CaseBuilder h name).2 wantErr)
          (CaseBuilder h name).2 err)
        (Build (CaseBuilder h name).2)
      = caseName (NewCase h name input want wantErr err).1
          (NewCase h name input want wantErr err).2)
    ∧ (caseInput
        (builderErr
          (builderWantErr
            (builderWant
              (builderInput (CaseBuilder h name).1 (CaseBuilder h name).2 input)
              (CaseBuilder h name).2 want)
            (CaseBuilder h name).2 wantErr)
          (CaseBuilder h name).2 err)
        (Build (CaseBuilder h name).2)
      = caseInput (NewCase h name input want wantErr err).1
          (NewCase h name input want wantErr err).2)
    ∧ (caseWant
        (builderErr
          (builderWantErr
            (builderWant
              (builderInput (CaseBuilder h name).1 (CaseBuilder h name).2 input)
              (CaseBuilder h name).2 want)
            (CaseBuilder h name).2 wantErr)
          (CaseBuilder h name).2 err)
        (Build (CaseBuilder h name).2)
      = caseWant (NewCase h name input want wantErr err).1
          (NewCase h name input want wantErr err).2)
    ∧ (caseWantErr
        (builderErr
          (builderWantErr
            (builderWant
              (builderInput (CaseBuilder h name).1 (CaseBuilder h name).2 input)
              (CaseBuilder h name).2 want)
            (CaseBuilder h name).2 wantErr)
          (CaseBuilder h name).2 err)
        (Build (CaseBuilder h name).2)
      = caseWantErr (NewCase h name input want wantErr err).1
          (NewCase h name input want wantErr err).2)
    ∧ (caseErr
        (builderErr
          (builderWantErr
            (builderWant
              (builderInput (CaseBuilder h name).1 (CaseBuilder h name).2 input)
              (CaseBuilder h name).2 want)
            (CaseBuilder h name).2 wantErr)
          (CaseBuilder h name).2 err)
        (Build (CaseBuilder h name).2)
      = caseErr (NewCase h name input want wantErr err).1
          (NewCase h name input want wantErr err).2)
    ∧ (caseName (applySets (CaseBuilder h name).1 (CaseBuilder h name).2 ops)
        (Build (CaseBuilder h name).2) = (nameWrites ops).getLastD name)
    ∧ (caseInput (applySets (CaseBuilder h name).1 (CaseBuilder h name).2 ops)
        (Build (CaseBuilder h name).2) = (inputWrites ops).getLastD GoVal.nilInterface)
    ∧ (caseWant (applySets (CaseBuilder h name).1 (CaseBuilder h name).2 ops)
        (Build (CaseBuilder h name).2) = (wantWrites ops).getLastD GoVal.nilInterface)
    ∧ (caseWantErr (applySets (CaseBuilder h name).1 (CaseBuilder h name).2 ops)
        (Build (CaseBuilder h name).2) = (wantErrWrites ops).getLastD false)
    ∧ (caseErr (applySets (CaseBuilder h name).1 (CaseBuilder h name).2 ops)
        (Build (CaseBuilder h name).2) = (errWrites ops).getLastD none) := by
  intro h name input want wantErr err ops
  have hb := caseBuilder_lt h name
  have hread := caseBuilder_read h name
  have hreadChain :
      (builderErr
        (builderWantErr
          (builderWant
            (builderInput (CaseBuilder h name).1 (CaseBuilder h name).2 input)
            (CaseBuilder h name).2 want)
          (CaseBuilder h name).2 wantErr)
        (CaseBuilder h name).2 err).read (CaseBuilder h name).2
      = { name := name, input := input, want := want, wantErr := wantErr, err := err } := by
    show (applySets (CaseBuilder h name).1 (CaseBuilder h name).2
        [SetOp.setInput input, SetOp.setWant want, SetOp.setWantErr wantErr,
          SetOp.setErr err]).read (CaseBuilder h name).2 = _
    rw [read_applySets _ _ _ hb, hread]
    rfl
  have hnew : (NewCase h name input want wantErr err).1.read
      (NewCase h name input want wantErr err).2
      = { name := name, input := input, want := want, wantErr := wantErr, err := err } :=
    Heap.read_alloc h _
  have hsets : (applySets (CaseBuilder h name).1 (CaseBuilder h name).2 ops).read
      (CaseBuilder h name).2 = applySetVals { name := name } ops := by
    rw [read_applySets _ _ _ hb, hread]
  refine ⟨?_, ?_, ?_, ?_, ?_, ?_, ?_, ?_, ?_, ?_⟩
  · simp only [caseName, Build, hreadChain, hnew]
  · simp only [caseInput, Build, hreadChain, hnew]
  · simp only [caseWant, Build, hreadChain, hnew]
  · simp only [caseWantErr, Build, hreadChain, hnew]
  · simp only [caseErr, Build, hreadChain, hnew]
  · simp only [caseName, Build, hsets, applySetVals_name]
  · simp only [caseInput, Build, hsets, applySetVals_input]
  · simp only [caseWant, Build, hsets, applySetVals_want]
  · simp only [caseWantErr, Build, hsets, applySetVals_wantErr]
  · simp only [caseErr, Build, hsets, applySetVals_err]

/-- C3 counterexample: on the concrete builder CaseBuilder("case"), after
the Case is obtained through Build, the subsequent setter call
Input(vInt 5) on the builder changes the value observed through the
accessor Input of the already-built Case from the nil interface to
vInt 5 — Build does not freeze the handed-off value. -/
theorem build_freeze_counterexample :
    caseInput (CaseBuilder emptyHeap "case").1
      (Build (CaseBuilder emptyHeap "case").2) = GoVal.nilInterface
    ∧ caseInput
        (builderInput (CaseBuilder emptyHeap "case").1
          (CaseBuilder emptyHeap "case").2 (GoVal.vInt 5))
        (Build (CaseBuilder emptyHeap "case").2) = GoVal.vInt 5
    ∧ GoVal.vInt 5 ≠ GoVal.nilInterface := by
  exact ⟨rfl, rfl, by decide⟩

/-- C3 (amended): Build returns the address of the caseImpl embedded in
the builder rather than a copy, so the built Case aliases the builder
storage: every setter call made on the builder after Build is observed
through the accessors of the built Case, whose fields always show the
current builder state; only a builder that is not used after Build leaves
the built Case unchanged. -/
theorem build_aliases_builder :
    ∀ (h : Heap) (name s : String) (v w : GoVal) (x : Bool) (e : Option String),
    Build (CaseBuilder h name).2 = (CaseBuilder h name).2
    ∧ caseName (builderName (CaseBuilder h name).1 (CaseBuilder h name).2 s)
        (Build (CaseBuilder h name).2) = s
    ∧ caseInput (builderInput (CaseBuilder h name).1 (CaseBuilder h name).2 v)
        (Build (CaseBuilder h name).2) = v
    ∧ caseWant (builderWant (CaseBuilder h name).1 (CaseBuilder h name).2 w)
        (Build (CaseBuilder h name).2) = w
    ∧ caseWantErr (builderWantErr (CaseBuilder h name).1 (CaseBuilder h name).2 x)
        (Build (CaseBuilder h name).2) = x
    ∧ caseErr (builderErr (CaseBuilder h name).1 (CaseBuilder h name).2 e)
        (Build (CaseBuilder h name).2) = e := by
  intro h name s v w x e
  have hb := caseBuilder_lt h name
  refine ⟨rfl, ?_, ?_, ?_, ?_, ?_⟩
  all_goals
    simp only [caseName, caseInput, caseWant, caseWantErr, caseErr, Build,
      builderName, builderInput, builderWant, builderWantErr, builderErr,
      Heap.read_write_self _ _ _ hb]

/-
Helper lemmas about the runner state machine.
-/

/-- A halted body executes no further command. -/
theorem runBody_halted : ∀ (cmds : List Cmd) (r : R), r.halted = true →
    runBody r cmds = r := by
  intro cmds r h
  cases cmds with
  | nil => rfl
  | cons c cs => simp [runBody, h]

/-- Counter effect of Case. -/
@[simp] theorem caseNum_Case (r : R) (f : String) :
    (r.Case f).caseNum = r.caseNum + 1 := rfl

/-- Counter effect of Run. -/
@[simp] theorem caseNum_Run (r : R) (n : String) (f : SubT → SubT) :
    (r.Run n f).caseNum = r.caseNum := rfl

/-- Counter effect of Caser. -/
@[simp] theorem caseNum_Caser (r : R) (n : String) (f : SubT → SubT) :
    (r.Caser n f).caseNum = r.caseNum + 1 := rfl

/-- Counter effect of Cases: one increment per case. -/
@[simp] theorem caseNum_Cases : ∀ (cs : List caseImpl) (r : R)
    (f : caseImpl → SubT → SubT),
    (R.Cases r cs f).caseNum = r.caseNum + cs.length := by
  intro cs
  induction cs with
  | nil => intro r f; simp [R.Cases]
  | cons c cs ih =>
    intro r f
    simp only [R.Cases, ih, caseNum_Run, caseNum_Case, List.length_cons]
    omega

/-- Counter effect of Pass. -/
@[simp] theorem caseNum_Pass (r : R) (f : String) :
    (r.Pass f).caseNum = r.caseNum := rfl

/-- Counter effect of Fail. -/
@[simp] theorem caseNum_Fail (r : R) (f : String) :
    (r.Fail f).caseNum = r.caseNum := rfl

/-- Counter effect of Fatal. -/
@[simp] theorem caseNum_Fatal (r : R) (f : String) :
    (r.Fatal f).caseNum = r.caseNum := rfl

/-- Counter effect of Require. -/
@[simp] theorem caseNum_Require (r : R) (c : Bool) (d : String) :
    (r.Require c d).caseNum = r.caseNum := by cases c <;> rfl

/-- Counter effect of FailNow. -/
@[simp] theorem caseNum_FailNow (r : R) (c : Bool) (d : String) :
    (r.FailNow c d).caseNum = r.caseNum := by cases c <;> rfl

/-- Counter effect of AssertNoErrf. -/
@[simp] theorem caseNum_AssertNoErrf (r : R) (e : Option String) (d : String) :
    (r.AssertNoErrf e d).caseNum = r.caseNum := by cases e <;> rfl

/-- Counter effect of AssertNoErr. -/
@[simp] theorem caseNum_AssertNoErr (r : R) (e : Option String) :
    (r.AssertNoErr e).caseNum = r.caseNum := by cases e <;> rfl

/-- Counter effect of AssertErrf. -/
@[simp] theorem caseNum_AssertErrf (r : R) (e : Option String) (d : String) :
    (r.AssertErrf e d).caseNum = r.caseNum := by cases e <;> rfl

/-- Counter effect of AssertErr. -/
@[simp] theorem caseNum_AssertErr (r : R) (e : Option String) :
    (r.AssertErr e).caseNum = r.caseNum := by cases e <;> rfl

/-- Counter effect of AssertEqual. -/
@[simp] theorem caseNum_AssertEqual (r : R) (a b : GoVal) (msg : List String) :
    (r.AssertEqual a b msg).caseNum = r.caseNum := by
  unfold R.AssertEqual; split <;> rfl

/-- Counter effect of AssertNotEqual. -/
@[simp] theorem caseNum_AssertNotEqual (r : R) (a b : GoVal) (msg : List String) :
    (r.AssertNotEqual a b msg).caseNum = r.caseNum := by
  unfold R.AssertNotEqual; split <;> rfl

/-- Counter effect of AssertNil. -/
@[simp] theorem caseNum_AssertNil (r : R) (v : GoVal) (msg : List String) :
    (r.AssertNil v msg).caseNum = r.caseNum := by
  unfold R.AssertNil; split <;> rfl

/-- Counter effect of AssertNotNil. -/
@[simp] theorem caseNum_AssertNotNil (r : R) (v : GoVal) (msg : List String) :
    (r.AssertNotNil v msg).caseNum = r.caseNum := by
  unfold R.AssertNotNil; split <;> rfl

/-- Counter effect of AssertTrue. -/
@[simp] theorem caseNum_AssertTrue (r : R) (c : Bool) (msg : List String) :
    (r.AssertTrue c msg).caseNum = r.caseNum := by cases c <;> rfl

/-- Counter effect of AssertFalse. -/
@[simp] theorem caseNum_AssertFalse (r : R) (c : Bool) (msg : List String) :
    (r.AssertFalse c msg).caseNum = r.caseNum := by cases c <;> rfl

/-- Counter effect of AssertContains. -/
@[simp] theorem caseNum_AssertContains (r : R) (c i : GoVal) (msg : List String) :
    (r.AssertContains c i msg).caseNum = r.caseNum := by
  unfold R.AssertContains; split <;> rfl

/-- Counter effect of AssertNotContains. -/
@[simp] theorem caseNum_AssertNotContains (r : R) (c i : GoVal) (msg : List String) :
    (r.AssertNotContains c i msg).caseNum = r.caseNum := by
  unfold R.AssertNotContains; split <;> rfl

/-- Counter effect of StartTimer. -/
@[simp] theorem caseNum_StartTimer (r : R) (now : Nat) :
    (r.StartTimer now).caseNum = r.caseNum + 1 := rfl

/-- Counter effect of StopTimer. -/
@[simp] theorem caseNum_StopTimer (r : R) (now : Nat) :
    (r.StopTimer now).caseNum = r.caseNum + 1 := rfl

/-- Counter effect of Benchmark. -/
@[simp] theorem caseNum_Benchmark (r : R) (name : String) :
    (r.Benchmark name).caseNum = r.caseNum + 1 := rfl

/-- Counter effect of Parallel. -/
@[simp] theorem caseNum_Parallel (r : R) :
    (r.Parallel).caseNum = r.caseNum + 1 := rfl

/-- Counter effect of Skip. -/
@[simp] theorem caseNum_Skip (r : R) (reason : String) :
    (r.Skip reason).caseNum = r.caseNum + 1 := rfl

/-- Counter effect of SkipIf. -/
@[simp] theorem caseNum_SkipIf (r : R) (c : Bool) (reason : String) :
    (r.SkipIf c reason).caseNum = if c then r.caseNum + 1 else r.caseNum := by
  cases c <;> rfl

/-- Counter effect of SkipUnless. -/
@[simp] theorem caseNum_SkipUnless (r : R) (c : Bool) (reason : String) :
    (r.SkipUnless c reason).caseNum = if c then r.caseNum else r.caseNum + 1 := by
  cases c <;> rfl

/-- Counter effect of Cleanup. -/
@[simp] theorem caseNum_Cleanup (r : R) :
    (r.Cleanup).caseNum = r.caseNum + 1 := rfl

/-- Counter effect of Helper. -/
@[simp] theorem caseNum_Helper (r : R) :
    (r.Helper).caseNum = r.caseNum := rfl

/-- Counter effect of Setenv. -/
@[simp] theorem caseNum_Setenv (r : R) (k v : String) :
    (r.Setenv k v).caseNum = r.caseNum + 1 := rfl

/-- Counter effect of RunParallel. -/
@[simp] theorem caseNum_RunParallel (r : R) :
    (r.RunParallel).caseNum = r.caseNum + 1 := rfl

/-- Counter effect of MemoryUsage. -/
@[simp] theorem caseNum_MemoryUsage (r : R) (m : MemStats) :
    (r.MemoryUsage m).caseNum = r.caseNum + 1 := rfl

/-- Counter effect of GoroutineCount. -/
@[simp] theorem caseNum_GoroutineCount (r : R) (c : Nat) :
    (r.GoroutineCount c).caseNum = r.caseNum + 1 := rfl

/-- Counter effect of TestInfo: three announcements (its own, the one of
GoroutineCount, and the one of MemoryUsage). -/
@[simp] theorem caseNum_TestInfo (r : R) (now c : Nat) (m : MemStats) :
    (r.TestInfo now c m).caseNum = r.caseNum + 3 := rfl

/-- No single operation decreases the counter. -/
theorem caseNum_le_step : ∀ (r : R) (c : Cmd), r.caseNum ≤ (step r c).caseNum := by
  intro r c
  cases c <;> simp [step] <;> (try split) <;> omega

/-- No sequence of operations decreases the counter. -/
theorem caseNum_le_runBody : ∀ (cmds : List Cmd) (r : R),
    r.caseNum ≤ (runBody r cmds).caseNum := by
  intro cmds
  induction cmds with
  | nil => intro r; exact Nat.le_refl _
  | cons c cs ih =>
    intro r
    by_cases h : r.halted = true
    · rw [runBody_halted _ _ h]
    · have hstep : runBody r (c :: cs) = runBody (step r c) cs := by
        simp [runBody, h]
      rw [hstep]
      exact Nat.le_trans (caseNum_le_step r c) (ih _)

/-- Counter after a fold of Case announcements. -/
theorem foldl_Case_caseNum : ∀ (msgs : List String) (r : R),
    (msgs.foldl R.Case r).caseNum = r.caseNum + msgs.length := by
  intro msgs
  induction msgs with
  | nil => intro r; simp
  | cons m ms ih =>
    intro r
    simp only [List.foldl_cons, ih, caseNum_Case, List.length_cons]
    omega

/-- Log after a fold of Case announcements: the original log followed by
the numbered announcement lines. -/
theorem foldl_Case_log : ∀ (msgs : List String) (r : R),
    (msgs.foldl R.Case r).log = r.log ++ announceLog r.caseNum msgs := by
  intro msgs
  induction msgs with
  | nil => intro r; simp [announceLog]
  | cons m ms ih =>
    intro r
    rw [List.foldl_cons, ih]
    simp [R.Case, R.Logf, announceLog]

/-- Log effect of Cases: the announcement lines of the case names, in
order, numbered from the current counter. -/
theorem Cases_log : ∀ (cs : List caseImpl) (r : R) (f : caseImpl → SubT → SubT),
    (R.Cases r cs f).log = r.log ++ announceLog r.caseNum (cs.map caseImpl.name) := by
  intro cs
  induction cs with
  | nil => intro r f; simp [R.Cases, announceLog]
  | cons c cs ih =>
    intro r f
    simp only [R.Cases, ih]
    simp [R.Run, R.Case, R.Logf, announceLog]

/-- Subtest outcomes recorded by Cases: one per case, in order, each the
callback applied to the case and a fresh subtest context. -/
theorem Cases_subResults : ∀ (cs : List caseImpl) (r : R)
    (f : caseImpl → SubT → SubT),
    (R.Cases r cs f).subResults
      = r.subResults ++ cs.map (fun c => (c.name, f c ({} : SubT))) := by
  intro cs
  induction cs with
  | nil => intro r f; simp [R.Cases]
  | cons c cs ih =>
    intro r f
    simp only [R.Cases, ih]
    simp [R.Run, R.Case, R.Logf]

/-- Cases never halts the parent body. -/
theorem Cases_halted : ∀ (cs : List caseImpl) (r : R) (f : caseImpl → SubT → SubT),
    (R.Cases r cs f).halted = r.halted := by
  intro cs
  induction cs with
  | nil => intro r f; rfl
  | cons c cs ih =>
    intro r f
    simp only [R.Cases, ih]
    simp [R.Run, R.Case, R.Logf]

/-- Characterisation of the position check of the substring scan. -/
theorem leadsWith_iff : ∀ (n h : List Char), leadsWith n h = true ↔ ∃ t, n ++ t = h := by
  intro n
  induction n with
  | nil => intro h; simp [leadsWith]
  | cons a as ih =>
    intro h
    cases h with
    | nil => simp [leadsWith]
    | cons b bs => simp [leadsWith, ih bs]

/-- Characterisation of the substring scan: an occurrence of the needle
splits the haystack in three. -/
theorem hasSubstrAux_iff : ∀ (hay n : List Char),
    hasSubstrAux n hay = true ↔ ∃ p t, p ++ n ++ t = hay := by
  intro hay
  induction hay with
  | nil =>
    intro n
    simp [hasSubstrAux, List.isEmpty_iff]
  | cons h t ih =>
    intro n
    simp only [hasSubstrAux, Bool.or_eq_true, leadsWith_iff, ih]
    constructor
    · rintro (⟨t2, ht2⟩ | ⟨p, t2, ht2⟩)
      · exact ⟨[], t2, by simpa using ht2⟩
      · exact ⟨h :: p, t2, by simp [ht2]⟩
    · rintro ⟨p, t2, ht2⟩
      cases p with
      | nil => exact Or.inl ⟨t2, by simpa using ht2⟩
      | cons a as =>
        simp only [List.cons_append] at ht2
        injection ht2 with h1 h2
        exact Or.inr ⟨as, t2, h2⟩

/-- Characterisation of the strings.Contains model. -/
theorem strContains_iff (c s : String) :
    strContains c s = true ↔ ∃ p t : List Char, p ++ s.data ++ t = c.data := by
  simp [strContains, hasSubstrAux_iff]

/-- C4: New initialises the counter to zero; every Case call increments
the counter by one, rebuilds the stored marker as the text Case n followed
by an arrow, logs the message with that marker prepended, and returns the
same runner otherwise unchanged; after n Case calls on a fresh runner the
counter reads n and the log holds the suite line followed by the
announcements numbered one to n; and no sequence of runner operations ever
decreases the counter. -/
theorem case_numbering_spec :
    ∀ (r : R) (format tn title : String) (now : Nat) (msgs : List String)
      (cmds : List Cmd),
    ((New tn title now).caseNum = 0)
    ∧ ((r.Case format).caseNum = r.caseNum + 1)
    ∧ ((r.Case format).casePrefix = "Case " ++ toString (r.caseNum + 1) ++ " -> ")
    ∧ ((r.Case format).log
        = r.log ++ ["Case " ++ toString (r.caseNum + 1) ++ " -> " ++ format])
    ∧ ((r.Case format).title = r.title)
    ∧ ((r.Case format).failed = r.failed)
    ∧ ((r.Case format).halted = r.halted)
    ∧ ((r.Case format).startTime = r.startTime)
    ∧ ((msgs.foldl R.Case (New tn title now)).caseNum = msgs.length)
    ∧ ((msgs.foldl R.Case (New tn title now)).log
        = ("Test Case => " ++ title) :: announceLog 0 msgs)
    ∧ (r.caseNum ≤ (runBody r cmds).caseNum) := by
  intro r format tn title now msgs cmds
  refine ⟨rfl, rfl, rfl, rfl, rfl, rfl, rfl, rfl, ?_, ?_, ?_⟩
  · rw [foldl_Case_caseNum]; simp [New]
  · rw [foldl_Case_log]; rfl
  · exact caseNum_le_runBody cmds r

/-- C5: Require with a true condition is exactly Pass, with a false
condition exactly Fail; neither branch changes the halted state, the true
branch leaves the failed flag untouched and the false branch sets it; and
in either case execution continues with the remaining statements of the
body. -/
theorem require_spec :
    ∀ (r : R) (cond : Bool) (desc : String) (rest : List Cmd),
    (r.Require true desc = r.Pass desc)
    ∧ (r.Require false desc = r.Fail desc)
    ∧ ((r.Require cond desc).halted = r.halted)
    ∧ ((r.Require true desc).failed = r.failed)
    ∧ ((r.Require false desc).failed = true)
    ∧ (r.halted = false →
        runBody r (Cmd.requireCmd cond desc :: rest)
          = runBody (r.Require cond desc) rest) := by
  intro r cond desc rest
  refine ⟨rfl, rfl, ?_, rfl, rfl, ?_⟩
  · cases cond <;> simp [R.Require, R.Pass, R.Fail, R.Logf, R.Errorf]
  · intro h
    simp [runBody, h, step]

/-- Witness for require_spec at a concrete runner and body. -/
theorem require_spec_witness :
    rEx.halted = false
    ∧ runBody rEx [Cmd.requireCmd true "cond holds"]
        = runBody (rEx.Require true "cond holds") [] :=
  ⟨rfl, (require_spec rEx true "cond holds" []).2.2.2.2.2 rfl⟩

/-- C6: FailNow with a true condition is exactly Pass and does not halt or
fail the test; with a false condition it records a failure (logging the
cross-marked line and setting the failed flag), halts immediately, and no
later statement of the same body is executed. -/
theorem failNow_spec :
    ∀ (r : R) (desc : String) (rest : List Cmd),
    (r.FailNow true desc = r.Pass desc)
    ∧ ((r.FailNow true desc).halted = r.halted)
    ∧ ((r.FailNow true desc).failed = r.failed)
    ∧ ((r.FailNow false desc).failed = true)
    ∧ ((r.FailNow false desc).halted = true)
    ∧ ((r.FailNow false desc).log = r.log ++ [failLine desc])
    ∧ (r.halted = false →
        runBody r (Cmd.failNowCmd false desc :: rest) = r.FailNow false desc)
    ∧ (r.halted = false →
        runBody r (Cmd.failNowCmd true desc :: rest)
          = runBody (r.Pass desc) rest) := by
  intro r desc rest
  refine ⟨rfl, rfl, rfl, rfl, rfl, rfl, ?_, ?_⟩
  · intro h
    have h1 : runBody r (Cmd.failNowCmd false desc :: rest)
        = runBody (r.FailNow false desc) rest := by
      simp [runBody, h, step]
    rw [h1]
    exact runBody_halted _ _ rfl
  · intro h
    simp [runBody, h, step, R.FailNow]

/-- Witness for failNow_spec: a failing FailNow makes the following Pass
statement unreachable. -/
theorem failNow_spec_witness :
    rEx.halted = false
    ∧ runBody rEx [Cmd.failNowCmd false "must hold", Cmd.passCmd "unreachable"]
        = rEx.FailNow false "must hold" :=
  ⟨rfl, (failNow_spec rEx "must hold" [Cmd.passCmd "unreachable"]).2.2.2.2.2.2.1 rfl⟩

/-- C7: AssertNoErrf on a nil error is exactly Pass (no failure, no halt);
on a non-nil error it records the failure, logs the error text, and halts
immediately so that nothing later in the body runs; AssertErrf is the
exact dual, logging that no error was found; AssertNoErr and AssertErr are
the same assertions with their default descriptions. -/
theorem errAssertions_spec :
    ∀ (r : R) (desc m : String) (e : Option String) (rest : List Cmd),
    (r.AssertNoErrf none desc = r.Pass desc)
    ∧ ((r.AssertNoErrf none desc).failed = r.failed)
    ∧ ((r.AssertNoErrf none desc).halted = r.halted)
    ∧ ((r.AssertNoErrf (some m) desc).failed = true)
    ∧ ((r.AssertNoErrf (some m) desc).halted = true)
    ∧ ((r.AssertNoErrf (some m) desc).log
        = r.log ++ [failLine desc, "requires no error, but found: " ++ m])
    ∧ (r.AssertNoErr e = r.AssertNoErrf e "error unexpected")
    ∧ (r.AssertErrf (some m) desc = r.Pass desc)
    ∧ ((r.AssertErrf (some m) desc).failed = r.failed)
    ∧ ((r.AssertErrf (some m) desc).halted = r.halted)
    ∧ ((r.AssertErrf none desc).failed = true)
    ∧ ((r.AssertErrf none desc).halted = true)
    ∧ ((r.AssertErrf none desc).log
        = r.log ++ [failLine desc, "requires error, but found nil"])
    ∧ (r.AssertErr e = r.AssertErrf e "error expected")
    ∧ (r.halted = false →
        runBody r (Cmd.assertNoErrfCmd (some m) desc :: rest)
          = r.AssertNoErrf (some m) desc)
    ∧ (r.halted = false →
        runBody r (Cmd.assertErrfCmd none desc :: rest)
          = r.AssertErrf none desc) := by
  intro r desc m e rest
  refine ⟨rfl, rfl, rfl, rfl, rfl, ?_, rfl, rfl, rfl, rfl, rfl, rfl, ?_, rfl, ?_, ?_⟩
  · simp [R.AssertNoErrf, R.Fail, R.Errorf, R.Logf, R.tFailNow]
  · simp [R.AssertErrf, R.Fail, R.Errorf, R.Logf, R.tFailNow]
  · intro h
    have h1 : runBody r (Cmd.assertNoErrfCmd (some m) desc :: rest)
        = runBody (r.AssertNoErrf (some m) desc) rest := by
      simp [runBody, h, step]
    rw [h1]
    exact runBody_halted _ _ rfl
  · intro h
    have h1 : runBody r (Cmd.assertErrfCmd none desc :: rest)
        = runBody (r.AssertErrf none desc) rest := by
      simp [runBody, h, step]
    rw [h1]
    exact runBody_halted _ _ rfl

/-- Witness for errAssertions_spec: a non-nil error halts the body at the
assertion. -/
theorem errAssertions_spec_witness :
    rEx.halted = false
    ∧ runBody rEx [Cmd.assertNoErrfCmd (some "boom") "no error wanted"]
        = rEx.AssertNoErrf (some "boom") "no error wanted" :=
  ⟨rfl,
    (errAssertions_spec rEx "no error wanted" "boom" none
        []).2.2.2.2.2.2.2.2.2.2.2.2.2.2.1 rfl⟩

/-- C9: Cases walks the list in order: the counter grows by exactly one
per case, the parent log gains exactly the numbered announcement of every
case name in list order, every case is run as a subtest named after it
with the callback applied to it — whatever the callback results are, so a
failing case never prevents or reorders later ones — and the parent body
is never halted by the batch. -/
theorem cases_batch_spec :
    ∀ (r : R) (cs : List caseImpl) (f : caseImpl → SubT → SubT),
    ((R.Cases r cs f).caseNum = r.caseNum + cs.length)
    ∧ ((R.Cases r cs f).log
        = r.log ++ announceLog r.caseNum (cs.map caseImpl.name))
    ∧ ((R.Cases r cs f).subResults
        = r.subResults ++ cs.map (fun c => (c.name, f c ({} : SubT))))
    ∧ ((R.Cases r cs f).halted = r.halted) :=
  fun r cs f =>
    ⟨caseNum_Cases cs r f, Cases_log cs r f, Cases_subResults cs r f,
      Cases_halted cs r f⟩

/-- C10: every one of the auxiliary helpers StartTimer, StopTimer, Skip,
SkipIf with a true condition, SkipUnless with a false condition, Setenv,
Cleanup, Parallel, Benchmark, MemoryUsage, GoroutineCount and TestInfo
announces through Case internally, so each strictly increases the case
counter (TestInfo by three, through its nested GoroutineCount and
MemoryUsage calls). -/
theorem aux_ops_increment_counter :
    ∀ (r : R) (now count : Nat) (m : MemStats) (name reason key value : String),
    (r.caseNum < (r.StartTimer now).caseNum)
    ∧ (r.caseNum < (r.StopTimer now).caseNum)
    ∧ (r.caseNum < (r.Skip reason).caseNum)
    ∧ (r.caseNum < (r.SkipIf true reason).caseNum)
    ∧ (r.caseNum < (r.SkipUnless false reason).caseNum)
    ∧ (r.caseNum < (r.Setenv key value).caseNum)
    ∧ (r.caseNum < (r.Cleanup).caseNum)
    ∧ (r.caseNum < (r.Parallel).caseNum)
    ∧ (r.caseNum < (r.Benchmark name).caseNum)
    ∧ (r.caseNum < (r.MemoryUsage m).caseNum)
    ∧ (r.caseNum < (r.GoroutineCount count).caseNum)
    ∧ (r.caseNum < (r.TestInfo now count m).caseNum)
    ∧ ((r.TestInfo now count m).caseNum = r.caseNum + 3) := by
  intro r now count m name reason key value
  refine ⟨?_, ?_, ?_, ?_, ?_, ?_, ?_, ?_, ?_, ?_, ?_, ?_, rfl⟩ <;> simp

/-- C1 counterexample: on a fresh runner, AssertNil applied to a typed nil
reference boxed in an any — modelled as GoVal.typedNil, which the Go
comparison against nil reports as non-nil — records a failure rather than
the pass the claim requires, and AssertNotNil records a pass rather than a
failure. -/
theorem assertNil_boxed_nil_counterexample :
    rEx.failed = false
    ∧ (rEx.AssertNil (GoVal.typedNil "ptrToInt") []).failed = true
    ∧ (rEx.AssertNotNil (GoVal.typedNil "ptrToInt") []).failed = false := by
  refine ⟨rfl, ?_, ?_⟩ <;> rfl

/-- C1 (amended): AssertNil records a pass exactly when the any value is
the untyped nil interface, and records a failure on every boxed value —
a typed nil reference stored inside the any included, because the source
compares the interface against nil directly; AssertNotNil is the exact
dual, so it passes on a boxed typed nil; neither assertion halts the
body. -/
theorem assertNil_interface_spec :
    ∀ (r : R) (v : GoVal) (msg : List String), r.failed = false →
    (((r.AssertNil v msg).failed = false) ↔ v = GoVal.nilInterface)
    ∧ (((r.AssertNotNil v msg).failed = false) ↔ v ≠ GoVal.nilInterface)
    ∧ ((r.AssertNil GoVal.nilInterface msg).log
        = r.log ++ [passLine "Value is nil"])
    ∧ (v ≠ GoVal.nilInterface →
        (r.AssertNil v msg).log
          = r.log ++ [failLine (resolveMsg msg ("Expected nil, got " ++ goShow v))])
    ∧ (v ≠ GoVal.nilInterface →
        (r.AssertNotNil v msg).log = r.log ++ [passLine "Value is not nil"])
    ∧ ((r.AssertNil v msg).halted = r.halted)
    ∧ ((r.AssertNotNil v msg).halted = r.halted) := by
  intro r v msg hr
  by_cases hv : v = GoVal.nilInterface <;>
    simp [R.AssertNil, R.AssertNotNil, R.Pass, R.Fail, R.Logf, R.Errorf, hv, hr]

/-- Witness for assertNil_interface_spec at a boxed typed nil on a fresh
runner. -/
theorem assertNil_interface_spec_witness :
    rEx.failed = false
    ∧ (((rEx.AssertNil (GoVal.typedNil "ptrToInt") []).failed = false)
        ↔ GoVal.typedNil "ptrToInt" = GoVal.nilInterface) :=
  ⟨rfl, (assertNil_interface_spec rEx (GoVal.typedNil "ptrToInt") [] rfl).1⟩

/-- C8: AssertContains on a string container with a string item records a
pass exactly when the item occurs as a substring (so hello world contains
world but not foo); on a slice container it records a pass exactly when
some element is deep-equal to the item (so the list of a and b contains
b); a string container with a non-string item, and any non-string
non-slice container, record a failure; and a pass appends exactly the
pass line to the log. -/
theorem assertContains_spec :
    ∀ (r : R) (c s : String) (xs : List GoVal) (item : GoVal) (msg : List String),
    r.failed = false →
    (((r.AssertContains (GoVal.vStr c) (GoVal.vStr s) msg).failed = false)
        ↔ ∃ p t : List Char, p ++ s.data ++ t = c.data)
    ∧ (((r.AssertContains (GoVal.vList xs) item msg).failed = false) ↔ item ∈ xs)
    ∧ ((r.AssertContains (GoVal.vInt 7) item msg).failed = true)
    ∧ ((r.AssertContains (GoVal.vStr c) (GoVal.vInt 5) msg).failed = true)
    ∧ ((r.AssertContains (GoVal.vStr "hello world") (GoVal.vStr "world") msg).failed
        = false)
    ∧ ((r.AssertContains (GoVal.vStr "hello world") (GoVal.vStr "foo") msg).failed
        = true)
    ∧ ((r.AssertContains (GoVal.vList [GoVal.vStr "a", GoVal.vStr "b"])
        (GoVal.vStr "b") msg).failed = false)
    ∧ (containsCheck (GoVal.vStr c) (GoVal.vStr s) = true →
        (r.AssertContains (GoVal.vStr c) (GoVal.vStr s) msg).log
          = r.log ++ [passLine "Container contains item"]) := by
  intro r c s xs item msg hr
  have hgen : ∀ (cont it : GoVal),
      (r.AssertContains cont it msg).failed = false ↔ containsCheck cont it = true := by
    intro cont it
    by_cases hc : containsCheck cont it = true <;>
      simp [R.AssertContains, hc, R.Pass, R.Fail, R.Logf, R.Errorf, hr]
  refine ⟨?_, ?_, ?_, ?_, ?_, ?_, ?_, ?_⟩
  · rw [hgen]
    exact strContains_iff c s
  · rw [hgen]
    simp [containsCheck, goDeepEqual, List.any_eq_true]
  · simp [R.AssertContains, containsCheck, R.Fail, R.Errorf]
  · simp [R.AssertContains, containsCheck, R.Fail, R.Errorf]
  · have hc : containsCheck (GoVal.vStr "hello world") (GoVal.vStr "world") = true := by
      decide
    simp [R.AssertContains, hc, R.Pass, R.Logf, hr]
  · have hc : containsCheck (GoVal.vStr "hello world") (GoVal.vStr "foo") = false := by
      decide
    simp [R.AssertContains, hc, R.Fail, R.Errorf]
  · have hc : containsCheck (GoVal.vList [GoVal.vStr "a", GoVal.vStr "b"])
        (GoVal.vStr "b") = true := by decide
    simp [R.AssertContains, hc, R.Pass, R.Logf, hr]
  · intro hc
    simp [R.AssertContains, hc, R.Pass, R.Logf]

/-- Witness for assertContains_spec: the concrete passing substring
example on a fresh runner. -/
theorem assertContains_spec_witness :
    rEx.failed = false
    ∧ (rEx.AssertContains (GoVal.vStr "hello world") (GoVal.vStr "world") []).failed
        = false :=
  ⟨rfl,
    (assertContains_spec rEx "hello world" "world" [] GoVal.nilInterface
        [] rfl).2.2.2.2.1⟩

end Got
